import Mathlib

/-!
Verification development for the audio transcode-and-move script
(transcode_and_move_audio_files.py). The Python source is shallowly embedded:
pure helpers become Lean functions, the function-attached mutable counters
become explicit state records threaded through the step functions, the file
system is a list of existing paths, and the outcome of an external process
(shutil move and copy, transcoder invocation) is a boolean parameter. Python
floats are modelled exactly as rationals together with an IEEE-754
round-to-nearest-even operation on 53-bit significands (floatRound below).
-/

/- ------------------------------------------------------------------ -/
/- FormatRegistry: dict_transcode_tool_platform_get and its tables     -/
/- ------------------------------------------------------------------ -/

/-- Options for the Opus encoder (opusenc), source line 99. -/
def options_encode_opus : List String :=
  ["--music", "--bitrate", "160", "--vbr", "--framesize", "20", "--comp", "10"]

/-- Options for the Opus decoder, source line 101 (none). -/
def options_decode_opus : List String := []

/-- Options for the flac encoder, source lines 105-106. -/
def options_encode_flac : List String :=
  ["--keep-foreign-metadata", "--replay-gain", "--mid-side", "--best", "--verify", "--output-name"]

/-- Options for the flac decoder, source line 108. -/
def options_decode_flac : List String := ["--decode", "--output-name"]

/-- Valid encode source formats for the opus target, source line 62. -/
def valid_encode_source_for_opus : List String := ["wav", "aiff", "flac", "oga", "pcm"]

/-- Valid encode source formats for the flac target, source line 69. -/
def valid_encode_source_for_flac : List String := ["wav", "aiff", "rf64", "w64"]

/-- The dict_valid_source dictionary of dict_transcode_tool_platform_get
(source lines 74-91). In the decode branch the Python dictionary values are
the bare strings "opus" and "flac"; they are modelled as one-element lists
(the membership test coincides for the whole-extension matches the program
performs; the Python substring semantics of `in` on a string is not needed by
any claim). -/
def dict_valid_source_get (operation_transcode : String) : List (String × List String) :=
  if operation_transcode == "encode" then
    [("opus", valid_encode_source_for_opus), ("flac", valid_encode_source_for_flac)]
  else
    [("opus", ["opus"]), ("flac", ["flac"])]

/-- The dict_valid_target dictionary of dict_transcode_tool_platform_get
(source lines 63-91): output extension per target format. -/
def dict_valid_target_get (operation_transcode : String) : List (String × String) :=
  if operation_transcode == "encode" then
    [("opus", "opus"), ("flac", "flac")]
  else
    [("opus", "wav"), ("flac", "wav")]

/-- Tool tables of dict_transcode_tool_platform_get (source lines 110-143):
platform.system() equal to "Windows" selects the Windows table with bare
executable names, every other platform string selects the Linux table with
absolute paths. -/
def dict_transcode_tool_get (platformSystem operation_transcode : String) :
    List (String × (String × List String)) :=
  if platformSystem == "Windows" then
    if operation_transcode == "encode" then
      [("opus", ("opusenc.exe", options_encode_opus)), ("flac", ("flac.exe", options_encode_flac))]
    else
      [("opus", ("opusdec.exe", options_decode_opus)), ("flac", ("flac.exe", options_decode_flac))]
  else
    if operation_transcode == "encode" then
      [("opus", ("/usr/bin/opusenc", options_encode_opus)),
       ("flac", ("/usr/bin/flac", options_encode_flac))]
    else
      [("opus", ("/usr/bin/opusdec", options_decode_opus)),
       ("flac", ("/usr/bin/flac", options_decode_flac))]

/-- Embedding of dict_transcode_tool_platform_get (source lines 53-145): yields
the tool dictionary, the valid-source dictionary and the valid-target
dictionary for a platform string and an operation string. -/
def dict_transcode_tool_platform_get (platformSystem : String) (operation_transcode : String) :
    List (String × (String × List String)) × List (String × List String) × List (String × String) :=
  (dict_transcode_tool_get platformSystem operation_transcode,
   dict_valid_source_get operation_transcode,
   dict_valid_target_get operation_transcode)

/-- Embedding of is_supported_platform (source lines 169-170). -/
def is_supported_platform (platformSystem : String) : Bool :=
  platformSystem == "Windows" || platformSystem == "Linux"

/-- Embedding of main_and_relevant_files_for_audio_get (source lines 149-150). -/
def main_and_relevant_files_for_audio_get (extension_target : String) : List String :=
  [extension_target, "mpc", "jpg", "jpeg", "png", "pls", "rtf", "txt", "accurip"]

/- ------------------------------------------------------------------ -/
/- split_root_extension (os.path.splitext plus the lower-cased tail)   -/
/- ------------------------------------------------------------------ -/

/-- Lower-casing of a string, character by character, matching str.lower for
the ASCII extensions this program compares. -/
def pyLower (s : String) : String := String.mk (s.toList.map Char.toLower)

/-- Embedding of posixpath.splitext on a character list: the extension is the
final dot-suffix of the basename, and is empty when every basename character
in front of the last dot is itself a dot (hidden files such as .bashrc keep
their name whole). -/
def splitextChars (p : List Char) : List Char × List Char :=
  let rev := p.reverse
  let base_rev := rev.takeWhile (fun c => !(c == '/'))
  let ext_rev := base_rev.takeWhile (fun c => !(c == '.'))
  if ext_rev.length = base_rev.length then (p, [])
  else if (base_rev.drop (ext_rev.length + 1)).all (fun c => c == '.') then (p, [])
  else ((rev.drop (ext_rev.length + 1)).reverse, '.' :: ext_rev.reverse)

/-- Embedding of split_root_extension (source lines 156-165): os.path.splitext,
then the part of the extension after the last extension separator, converted
to lower case. -/
def split_root_extension (source_path : String) : String × String :=
  let pair := splitextChars source_path.toList
  (String.mk pair.1,
   String.mk (((pair.2.reverse.takeWhile (fun c => !(c == '.'))).reverse).map Char.toLower))

/- ------------------------------------------------------------------ -/
/- RelocationEngine: move_or_copy_file and its counters                -/
/- ------------------------------------------------------------------ -/

/-- Outcome classification of one move_or_copy_file call. A file whose
extension is a key of the valid-source dictionary is moved; a file whose
extension is among the relevant companion extensions is copied; every other
file is ignored. The two Failed outcomes model shutil raising an error. -/
inductive RelocOutcome where
  | moved
  | copied
  | ignored
  | moveFailed
  | copyFailed
deriving DecidableEq

/-- The function-attached counters of move_or_copy_file
(source lines 275-277). -/
structure RelocStats where
  total_count : Nat
  total_count_moved : Nat
  total_size : Nat
deriving DecidableEq

/-- Embedding of move_or_copy_file (source lines 218-272). size_file stands
for os.path.getsize on the file, shutilSucceeds for the shutil.move or
shutil.copy2 call not raising. Counters are only advanced in the else branch
of the try, exactly as in the source. -/
def move_or_copy_file (platformSystem : String) (file_source : String)
    (extension_target : String) (size_file : Nat) (shutilSucceeds : Bool)
    (s : RelocStats) : RelocOutcome × RelocStats :=
  let dict_valid_source := (dict_transcode_tool_platform_get platformSystem "encode").2.1
  let extension := (split_root_extension file_source).2
  if extension ∈ dict_valid_source.map Prod.fst then
    if shutilSucceeds then
      (RelocOutcome.moved,
        { total_count := s.total_count + 1
          total_count_moved := s.total_count_moved + 1
          total_size := s.total_size + size_file })
    else (RelocOutcome.moveFailed, s)
  else if extension ∈ (main_and_relevant_files_for_audio_get extension_target).drop 1 then
    if shutilSucceeds then
      (RelocOutcome.copied,
        { s with total_count := s.total_count + 1, total_size := s.total_size + size_file })
    else (RelocOutcome.copyFailed, s)
  else (RelocOutcome.ignored, s)

/-- Wording of claim C1 rendered as a definition, for comparison with the
code: an extension is eligible for move iff it is a recognized transcode
source extension for the active target format, that is, a member of the
valid-source set the registry assigns to that format (encode operation, the
one move_or_copy_file queries). -/
def spec_move_eligible (format_target extension : String) : Bool :=
  (((dict_valid_source_get "encode").lookup format_target).getD []).contains extension

/-- One file handed to the relocation step during a run. -/
structure RelocEvent where
  file_source : String
  extension_target : String
  size_file : Nat
  shutilSucceeds : Bool

/-- State transition of one relocation call. -/
def relocStep (platformSystem : String) (s : RelocStats) (e : RelocEvent) : RelocStats :=
  (move_or_copy_file platformSystem e.file_source e.extension_target e.size_file
    e.shutilSucceeds s).2

/-- A whole relocation pass starting from the zero-initialised counters
(source lines 275-277). -/
def runReloc (platformSystem : String) (events : List RelocEvent) : RelocStats :=
  events.foldl (relocStep platformSystem) ⟨0, 0, 0⟩

/-- Outcome of one relocation call; the classification does not depend on the
counter state. -/
def relocOutcome (platformSystem : String) (e : RelocEvent) : RelocOutcome :=
  (move_or_copy_file platformSystem e.file_source e.extension_target e.size_file
    e.shutilSucceeds ⟨0, 0, 0⟩).1

/-- Number of files of a pass that were successfully moved. -/
def movedCount (platformSystem : String) (events : List RelocEvent) : Nat :=
  events.countP (fun e => decide (relocOutcome platformSystem e = RelocOutcome.moved))

/-- Number of files of a pass that were successfully copied. -/
def copiedCount (platformSystem : String) (events : List RelocEvent) : Nat :=
  events.countP (fun e => decide (relocOutcome platformSystem e = RelocOutcome.copied))

/- ------------------------------------------------------------------ -/
/- Python float model: IEEE-754 binary64 values as exact rationals     -/
/- ------------------------------------------------------------------ -/

/-- Rounding of a rational to the nearest integer with ties going to the even
integer, the Python built-in round on a float and the IEEE-754 default
treatment of a tie. -/
def roundHalfEven (q : ℚ) : ℤ :=
  if q - ⌊q⌋ < 1/2 then ⌊q⌋
  else if 1/2 < q - ⌊q⌋ then ⌊q⌋ + 1
  else if ⌊q⌋ % 2 = 0 then ⌊q⌋ else ⌊q⌋ + 1

/-- Fuel-based floor of the base-two logarithm, structurally recursive so the
kernel can evaluate it on literals. -/
def log2floorAux : Nat → Nat → Nat
  | 0, _ => 0
  | fuel + 1, n => if 2 ≤ n then log2floorAux fuel (n / 2) + 1 else 0

/-- Floor of the base-two logarithm of a positive natural number. -/
def log2floor (n : Nat) : Nat := log2floorAux n n

/-- Largest power-of-two exponent not exceeding a positive rational: the
binary exponent of the IEEE-754 representation of the value. -/
def exp2Floor (q : ℚ) : ℤ :=
  if q < (2 : ℚ) ^ ((log2floor q.num.natAbs : ℤ) - (log2floor q.den : ℤ))
  then (log2floor q.num.natAbs : ℤ) - (log2floor q.den : ℤ) - 1
  else (log2floor q.num.natAbs : ℤ) - (log2floor q.den : ℤ)

/-- Rounding of a positive rational to the nearest IEEE-754 double
(binary64): the significand is scaled to the 53-bit range determined by the
binary exponent and rounded half-to-even. Non-positive arguments (never
produced by the program paths modelled here) map to zero. Overflow and
subnormal ranges are outside the magnitudes this program computes and are not
modelled. -/
def floatRound (q : ℚ) : ℚ :=
  if q ≤ 0 then 0
  else ((roundHalfEven (q * 2 ^ ((52 : ℤ) - exp2Floor q)) : ℤ) : ℚ) * 2 ^ (exp2Floor q - 52)

/-- The percentage computed on source line 479-481:
math.floor((total_count_transcode / total_count_source) * 100), where the two
divisions and the product are performed in Python floats. The inner division
of two machine integers yields the correctly rounded double of the exact
ratio, and the product with 100 is again correctly rounded; math.floor then
takes the exact floor of the resulting double. -/
def pyPercentFloor (total_count_transcode total_count_source : Nat) : ℤ :=
  ⌊floatRound (floatRound ((total_count_transcode : ℚ) / (total_count_source : ℚ)) * 100)⌋

/-- Progress report printed after a processed file, source lines 476-488. -/
inductive PReport where
  | percent : ℤ → PReport
  | allDone
deriving DecidableEq

/-- The report selection of source lines 478-488: nothing is printed unless
both counters are non-zero (Python truthiness of the conjunction); a
floor-rounded percentage is printed while the transcoded counter is below the
eligible counter, and the all-files-transcoded message (the hundred-percent
report) otherwise. -/
def percentReport (total_count_source total_count_transcode : Nat) : Option PReport :=
  if total_count_source ≠ 0 ∧ total_count_transcode ≠ 0 then
    some (if total_count_transcode < total_count_source
      then PReport.percent (pyPercentFloor total_count_transcode total_count_source)
      else PReport.allDone)
  else none

/- ------------------------------------------------------------------ -/
/- TranscodeDispatcher: transcode_source_audio with its cache          -/
/- ------------------------------------------------------------------ -/

/-- The function-attached resolution cache of transcode_source_audio
(source lines 368-390 and 496-504): the previously resolved extension with
the validation data computed for it. -/
structure TCacheEntry where
  extension_prev : String
  target_prev : String
  is_valid_source_prev : Bool
  does_transcode_tool_exist_prev : Bool
  transcode_tool_prev : String
  options_prev : List String
deriving DecidableEq

/-- The function-attached mutable state of transcode_source_audio
(source lines 493-504): the two counters, the cache, and the keys of the
dict_files_failed ledger (the attached remediation hint is one fixed string,
source lines 447-451, and is not tracked). -/
structure TranscodeState where
  total_count_transcode : Nat
  total_count_source : Nat
  cache : Option TCacheEntry
  files_failed : List String
deriving DecidableEq

/-- Output extension the registry assigns to a target format for an
operation, the dict_valid_target lookup of source line 383. -/
def output_extension (extension operation_transcode : String) : String :=
  ((dict_valid_target_get operation_transcode).lookup extension).getD ""

/-- Fresh resolution of the transcode parameters for one source extension,
source lines 377-390. fs is the set of existing file paths, consulted by the
os.path.isfile check on the tool. -/
def transcodeFresh (platformSystem extension_original extension operation_transcode : String)
    (fs : List String) : TCacheEntry :=
  let dicts := dict_transcode_tool_platform_get platformSystem operation_transcode
  { extension_prev := extension_original
    target_prev := (dicts.2.2.lookup extension).getD ""
    is_valid_source_prev := ((dicts.2.1.lookup extension).getD []).contains (pyLower extension_original)
    does_transcode_tool_exist_prev := fs.contains ((dicts.1.lookup extension).getD ("", [])).1
    transcode_tool_prev := ((dicts.1.lookup extension).getD ("", [])).1
    options_prev := ((dicts.1.lookup extension).getD ("", [])).2 }

/-- The cache check of source lines 368-390: when the incoming source
extension equals the cached one the cached data is reused (even when target
format or operation differ, exactly as in the source); otherwise everything
is recomputed. -/
def transcodeResolve (platformSystem extension_original extension operation_transcode : String)
    (fs : List String) (cache : Option TCacheEntry) : TCacheEntry :=
  match cache with
  | some c =>
    if c.extension_prev = extension_original then c
    else transcodeFresh platformSystem extension_original extension operation_transcode fs
  | none => transcodeFresh platformSystem extension_original extension operation_transcode fs

/-- Outcome classification of one transcode_source_audio call. -/
inductive TOutcome where
  | ineligible
  | gatherCounted
  | gatherSkipExisting
  | skippedExisting
  | toolMissing
  | transcoded
  | toolFailed
deriving DecidableEq

/-- Result of one transcode_source_audio call: the Python return value, the
outcome, whether the external tool was invoked, the file system afterwards,
the new function-attached state and the progress report printed. -/
structure TranscodeOut where
  returned : Option String
  outcome : TOutcome
  toolInvoked : Bool
  fs : List String
  state : TranscodeState
  report : Option PReport
deriving DecidableEq

/-- Embedding of transcode_source_audio (source lines 354-490). toolSucceeds
models the subprocess.run call not raising CalledProcessError; a successful
invocation creates the target file. The function returns the computed target
path on every path through the source except the two early percentage-gather
returns, which yield None. -/
def transcode_source_audio (platformSystem path_source_audio_file format_target
    operation_transcode : String) (percentage_gather : Bool) (toolSucceeds : Bool)
    (fs : List String) (s : TranscodeState) : TranscodeOut :=
  let root := (split_root_extension path_source_audio_file).1
  let extension_original := (split_root_extension path_source_audio_file).2
  let extension := pyLower format_target
  let entry := transcodeResolve platformSystem extension_original extension operation_transcode fs s.cache
  let s1 : TranscodeState := { s with cache := some entry }
  let path_target_audio_file := root ++ "." ++ entry.target_prev
  if entry.is_valid_source_prev then
    if path_target_audio_file ∉ fs then
      if percentage_gather then
        { returned := none, outcome := TOutcome.gatherCounted, toolInvoked := false, fs := fs,
          state := { s1 with total_count_source := s1.total_count_source + 1 }, report := none }
      else if entry.does_transcode_tool_exist_prev then
        if toolSucceeds then
          let s2 := { s1 with total_count_transcode := s1.total_count_transcode + 1 }
          { returned := some path_target_audio_file, outcome := TOutcome.transcoded,
            toolInvoked := true, fs := path_target_audio_file :: fs, state := s2,
            report := percentReport s2.total_count_source s2.total_count_transcode }
        else
          let s2 := { s1 with files_failed := s1.files_failed ++ [path_source_audio_file] }
          { returned := some path_target_audio_file, outcome := TOutcome.toolFailed,
            toolInvoked := true, fs := fs, state := s2,
            report := percentReport s2.total_count_source s2.total_count_transcode }
      else
        { returned := some path_target_audio_file, outcome := TOutcome.toolMissing,
          toolInvoked := false, fs := fs, state := s1,
          report := percentReport s1.total_count_source s1.total_count_transcode }
    else
      if percentage_gather then
        { returned := none, outcome := TOutcome.gatherSkipExisting, toolInvoked := false,
          fs := fs, state := s1, report := none }
      else
        { returned := some path_target_audio_file, outcome := TOutcome.skippedExisting,
          toolInvoked := false, fs := fs, state := s1,
          report := percentReport s1.total_count_source s1.total_count_transcode }
  else
    { returned := some path_target_audio_file, outcome := TOutcome.ineligible,
      toolInvoked := false, fs := fs, state := s1, report := none }

/- ------------------------------------------------------------------ -/
/- PathPlanner: build_target_and_operate and process_dir path algebra  -/
/- ------------------------------------------------------------------ -/

/-- Remainder of a character list after the first occurrence of a separator
sequence, or none when the separator does not occur: the third component of
the Python str.partition. -/
def afterFirst (sep : List Char) : List Char → Option (List Char)
  | [] => if sep.isPrefixOf ([] : List Char) then some [] else none
  | c :: rest =>
    if sep.isPrefixOf (c :: rest) then some ((c :: rest).drop sep.length)
    else afterFirst sep rest

/-- The expression dir.partition(sep)[2] of source line 331: the part after
the first occurrence of the separator, empty when the separator is absent. -/
def pyPartitionAfter (s sep : List Char) : List Char := (afterFirst sep s).getD []

/-- Two-argument posixpath.join: an absolute second path wins; otherwise the
parts are glued with a single separator unless the first part is empty or
already ends with one. -/
def pyJoin (a b : List Char) : List Char :=
  if b.head? = some '/' then b
  else if a = [] ∨ a.getLast? = some '/' then a ++ b
  else a ++ '/' :: b

/-- posixpath.basename: everything after the last separator. -/
def basename (p : List Char) : List Char :=
  (p.reverse.takeWhile (fun c => !(c == '/'))).reverse

/-- Destination directory planned for one walked source directory, source
lines 331-333: the source root prefix (with its trailing separator) is
stripped from the walked directory and the remainder is re-rooted under the
already-built destination head directory. -/
def planDestinationDir (root_source dir_source dir_destination : List Char) : List Char :=
  pyJoin dir_destination (pyPartitionAfter dir_source (root_source ++ ['/']))

/-- Destination head directory built by process_dir, source line 616:
os.path.join(os.sep, dir_destination + os.sep, basename(root_source)). -/
def destinationHead (root_source dir_destination : List Char) : List Char :=
  pyJoin (pyJoin ['/'] (dir_destination ++ ['/'])) (basename root_source)

/-- Normalisation dropping trailing separators, for comparing directory
spellings that denote the same directory. -/
def stripTrailingSlashes (p : List Char) : List Char :=
  (p.reverse.dropWhile (fun c => c == '/')).reverse

/- ------------------------------------------------------------------ -/
/- StatsAggregator: total_time_in_hms_get                              -/
/- ------------------------------------------------------------------ -/

/-- Python round(x, 2) for the positive sub-second values this program
formats: the exact value of the double is rounded half-to-even at the second
decimal place and the result is re-rounded to the nearest double. (A decimal
tie would require the double to be an odd multiple of 1/200, which no binary
fraction is, so the tie branch never fires for these inputs.) -/
def pyRound2 (x : ℚ) : ℚ := floatRound (((roundHalfEven (x * 100) : ℤ) : ℚ) / 100)

/-- Embedding of total_time_in_hms_get (source lines 508-532) returning the
rendered (hours, minutes, seconds) triple; the source interpolates exactly
these three values into its result string. seconds_raw is the Python float
total_time_ns / 1000000000; round on ints divided by 60 goes through a float
division as in the source. -/
def total_time_in_hms_get (total_time_ns : Nat) : ℚ × ℚ × ℚ :=
  let seconds_raw : ℚ := floatRound ((total_time_ns : ℚ) / 1000000000)
  let seconds0 : ℤ := roundHalfEven seconds_raw
  let minutes0 : ℤ := if 60 ≤ seconds0 then roundHalfEven (floatRound ((seconds0 : ℚ) / 60)) else 0
  let seconds1 : ℤ := if 60 ≤ seconds0 then seconds0 % 60 else seconds0
  let hours : ℤ := if 60 ≤ minutes0 then roundHalfEven (floatRound ((minutes0 : ℚ) / 60)) else 0
  let minutes : ℤ := if 60 ≤ minutes0 then minutes0 % 60 else minutes0
  let seconds_out : ℚ :=
    if (¬(hours ≠ 0 ∧ minutes ≠ 0)) ∧ (seconds_raw < 1 ∧ 0 < seconds_raw) then
      pyRound2 seconds_raw
    else if (¬(hours ≠ 0 ∧ minutes ≠ 0)) ∧ (seconds_raw < 60 ∧ 1 < seconds_raw) then
      ((roundHalfEven seconds_raw : ℤ) : ℚ)
    else (seconds1 : ℚ)
  ((hours : ℚ), (minutes : ℚ), seconds_out)

/- ------------------------------------------------------------------ -/
/- BatchCoordinator: exit-code skeleton of main and the entry guard    -/
/- ------------------------------------------------------------------ -/

/-- Environment of one run of main: the platform string, the parsed options,
the existence checks the control flow branches on, and the per-file failures
occurring inside the passes (which the exit-code logic never reads). -/
structure ScriptEnv where
  platformSystem : String
  encode_to : Option String
  decode_from : Option String
  move_format : Option String
  percentage_show : Bool
  source_exists : Bool
  source_isdir : Bool
  dest_ok : Bool
  file_failures : List String
deriving DecidableEq

/-- Exit code of process_dir (source lines 608-670): 1 exactly when the
destination head directory neither exists nor could be created; the transcode
and relocation loops never assign exit_code, so the per-file failures are
ignored. -/
def process_dir_exit (dest_ok : Bool) (_file_failures : List String) : Nat :=
  if dest_ok then 0 else 1

/-- Exit code of process_file (source lines 673-706), same shape as
process_dir_exit. -/
def process_file_exit (dest_ok : Bool) (_file_failures : List String) : Nat :=
  if dest_ok then 0 else 1

/-- Exit-code skeleton of main (source lines 798-894): the value main
returns (Lean reserves the bare name main for executables, hence the suffix).
The target selection mirrors line 815, the conflicting-option check line 818,
the source existence check line 828, and the two process calls lines
859-871. -/
def main_exit_code (env : ScriptEnv) : Nat :=
  if is_supported_platform env.platformSystem then
    match (match env.encode_to with
           | some e => some e
           | none => match env.decode_from with
                     | some d => some d
                     | none => env.move_format) with
    | some _ =>
      if env.move_format.isSome && env.percentage_show then 1
      else if env.source_exists then
        (if env.source_isdir then
          (if process_dir_exit env.dest_ok env.file_failures ≠ 0 then 1 else 0)
        else
          (if process_file_exit env.dest_ok env.file_failures ≠ 0 then 1 else 0))
      else 1
    | none => 1
  else 1

/-- Exit status of the interpreter process: the guard at source lines 897-898
calls main(sys.argv) and discards its return value without passing it to
sys.exit, so in the absence of an uncaught exception the process terminates
with status 0 whatever main returned. -/
def python_script_exit (_env : ScriptEnv) : Nat := 0

/-- Concrete run environment on an unsupported platform (macOS reports the
system string Darwin), used to evaluate the fatal-precondition paths. -/
def env_darwin : ScriptEnv :=
  { platformSystem := "Darwin", encode_to := some "opus", decode_from := none,
    move_format := none, percentage_show := false, source_exists := true,
    source_isdir := true, dest_ok := true, file_failures := [] }

/- ------------------------------------------------------------------ -/
/- Theorems. First the helper lemmas about the float model.            -/
/- ------------------------------------------------------------------ -/
theorem le_roundHalfEven (q : ℚ) : ⌊q⌋ ≤ roundHalfEven q := by
  unfold roundHalfEven
  split_ifs <;> omega

theorem roundHalfEven_le (q : ℚ) : roundHalfEven q ≤ ⌊q⌋ + 1 := by
  unfold roundHalfEven
  split_ifs <;> omega

theorem roundHalfEven_eq_floor_of_lt {q : ℚ} (h : q - ⌊q⌋ < 1/2) :
    roundHalfEven q = ⌊q⌋ := by
  unfold roundHalfEven
  rw [if_pos h]

theorem roundHalfEven_eq_succ_of_gt {q : ℚ} (h : 1/2 < q - ⌊q⌋) :
    roundHalfEven q = ⌊q⌋ + 1 := by
  unfold roundHalfEven
  rw [if_neg (by linarith), if_pos h]

theorem roundHalfEven_mono {a b : ℚ} (h : a ≤ b) :
    roundHalfEven a ≤ roundHalfEven b := by
  rcases lt_or_eq_of_le (Int.floor_le_floor h) with hfl | hfl
  · calc roundHalfEven a ≤ ⌊a⌋ + 1 := roundHalfEven_le a
      _ ≤ ⌊b⌋ := by omega
      _ ≤ roundHalfEven b := le_roundHalfEven b
  · by_cases ha : a - ⌊a⌋ < 1/2
    · rw [roundHalfEven_eq_floor_of_lt ha, hfl]
      exact le_roundHalfEven b
    · have hfb : ¬(b - ⌊b⌋ < 1/2) := by
        have hc : ((⌊a⌋ : ℤ) : ℚ) = ((⌊b⌋ : ℤ) : ℚ) := by rw [hfl]
        push_neg at ha ⊢
        linarith
      by_cases ha2 : 1/2 < a - ⌊a⌋
      · have hb2 : 1/2 < b - ⌊b⌋ := by
          have hc : ((⌊a⌋ : ℤ) : ℚ) = ((⌊b⌋ : ℤ) : ℚ) := by rw [hfl]
          linarith
        rw [roundHalfEven_eq_succ_of_gt ha2, roundHalfEven_eq_succ_of_gt hb2, hfl]
      · by_cases hb2 : 1/2 < b - ⌊b⌋
        · rw [roundHalfEven_eq_succ_of_gt hb2]
          calc roundHalfEven a ≤ ⌊a⌋ + 1 := roundHalfEven_le a
            _ = ⌊b⌋ + 1 := by omega
        · have hab : a = b := by
            have h1 : a - ⌊a⌋ = 1/2 := le_antisymm (not_lt.mp ha2) (not_lt.mp ha)
            have h2 : b - ⌊b⌋ = 1/2 := le_antisymm (not_lt.mp hb2) (not_lt.mp hfb)
            have hc : ((⌊a⌋ : ℤ) : ℚ) = ((⌊b⌋ : ℤ) : ℚ) := by rw [hfl]
            linarith
          rw [hab]

theorem log2floorAux_spec : ∀ fuel n, 1 ≤ n → n ≤ fuel →
    2 ^ (log2floorAux fuel n) ≤ n ∧ n < 2 ^ (log2floorAux fuel n + 1) := by
  intro fuel
  induction fuel with
  | zero => intro n h1 h2; omega
  | succ fuel ih =>
    intro n h1 h2
    by_cases h : 2 ≤ n
    · have hd1 : 1 ≤ n / 2 := by omega
      have hd2 : n / 2 ≤ fuel := by omega
      obtain ⟨ihl, ihr⟩ := ih (n / 2) hd1 hd2
      simp only [log2floorAux, if_pos h]
      rw [pow_succ, pow_succ]
      omega
    · simp only [log2floorAux, if_neg h]
      omega

theorem log2floor_spec (n : Nat) (h : 1 ≤ n) :
    2 ^ log2floor n ≤ n ∧ n < 2 ^ (log2floor n + 1) :=
  log2floorAux_spec n n h le_rfl

theorem exp2Floor_spec {q : ℚ} (hq : 0 < q) :
    (2 : ℚ) ^ exp2Floor q ≤ q ∧ q < 2 ^ (exp2Floor q + 1) := by
  have hnum : 0 < q.num := Rat.num_pos.mpr hq
  have hn1 : 1 ≤ q.num.natAbs := by omega
  have hd1 : 1 ≤ q.den := q.pos
  obtain ⟨hnl, hnr⟩ := log2floor_spec q.num.natAbs hn1
  obtain ⟨hdl, hdr⟩ := log2floor_spec q.den hd1
  set Ln := log2floor q.num.natAbs with hLn
  set Ld := log2floor q.den with hLd
  have hcast : ((q.num.natAbs : ℚ)) = ((q.num : ℤ) : ℚ) := by
    rw [Int.cast_natAbs, abs_of_pos]
    exact_mod_cast hnum
  have hqeq : q = (q.num.natAbs : ℚ) / (q.den : ℚ) := by
    rw [hcast]
    exact (Rat.num_div_den q).symm
  have hdpos : (0 : ℚ) < (q.den : ℚ) := by exact_mod_cast hd1
  have hnpos : (0 : ℚ) < (q.num.natAbs : ℚ) := by exact_mod_cast hn1
  have e1 : (q.num.natAbs : ℚ) < (2 : ℚ) ^ (Ln + 1) := by exact_mod_cast hnr
  have e2 : (2 : ℚ) ^ Ld ≤ (q.den : ℚ) := by exact_mod_cast hdl
  have e3 : (2 : ℚ) ^ Ln ≤ (q.num.natAbs : ℚ) := by exact_mod_cast hnl
  have e4 : (q.den : ℚ) < (2 : ℚ) ^ (Ld + 1) := by exact_mod_cast hdr
  have hupper : q < (2 : ℚ) ^ ((Ln : ℤ) - Ld + 1) := by
    have hzp : (2 : ℚ) ^ ((Ln : ℤ) - Ld + 1) = (2 : ℚ) ^ (Ln + 1) / (2 : ℚ) ^ Ld := by
      rw [show (Ln : ℤ) - Ld + 1 = ((Ln + 1 : ℕ) : ℤ) - ((Ld : ℕ) : ℤ) by push_cast; ring,
        zpow_sub₀ (two_ne_zero), zpow_natCast, zpow_natCast]
    rw [hzp, hqeq, div_lt_div_iff₀ hdpos (by positivity)]
    calc (q.num.natAbs : ℚ) * (2 : ℚ) ^ Ld
        < (2 : ℚ) ^ (Ln + 1) * (2 : ℚ) ^ Ld := by
          exact mul_lt_mul_of_pos_right e1 (by positivity)
      _ ≤ (2 : ℚ) ^ (Ln + 1) * (q.den : ℚ) := by
          exact mul_le_mul_of_nonneg_left e2 (by positivity)
  have hlower : (2 : ℚ) ^ ((Ln : ℤ) - Ld - 1) < q := by
    have hzp : (2 : ℚ) ^ ((Ln : ℤ) - Ld - 1) = (2 : ℚ) ^ Ln / (2 : ℚ) ^ (Ld + 1) := by
      rw [show (Ln : ℤ) - Ld - 1 = ((Ln : ℕ) : ℤ) - ((Ld + 1 : ℕ) : ℤ) by push_cast; ring,
        zpow_sub₀ (two_ne_zero), zpow_natCast, zpow_natCast]
    rw [hzp, hqeq, div_lt_div_iff₀ (by positivity) hdpos]
    calc (2 : ℚ) ^ Ln * (q.den : ℚ)
        < (2 : ℚ) ^ Ln * (2 : ℚ) ^ (Ld + 1) := by
          exact mul_lt_mul_of_pos_left e4 (by positivity)
      _ ≤ (q.num.natAbs : ℚ) * (2 : ℚ) ^ (Ld + 1) := by
          exact mul_le_mul_of_nonneg_right e3 (by positivity)
  unfold exp2Floor
  rw [← hLn, ← hLd]
  by_cases hc : q < (2 : ℚ) ^ ((Ln : ℤ) - Ld)
  · rw [if_pos hc]
    constructor
    · exact le_of_lt hlower
    · rw [show (Ln : ℤ) - Ld - 1 + 1 = (Ln : ℤ) - Ld by ring]
      exact hc
  · rw [if_neg hc]
    constructor
    · exact not_lt.mp hc
    · rw [show (Ln : ℤ) - Ld + 1 = (Ln : ℤ) - Ld + 1 from rfl]
      exact hupper

theorem floatRound_ge {x : ℚ} (hx : 0 < x) : (2 : ℚ) ^ exp2Floor x ≤ floatRound x := by
  rw [floatRound, if_neg (not_le.mpr hx)]
  obtain ⟨hel, _⟩ := exp2Floor_spec hx
  set e := exp2Floor x with he
  have hsc : (2 : ℚ) ^ (52 : ℤ) ≤ x * 2 ^ ((52 : ℤ) - e) := by
    calc (2 : ℚ) ^ (52 : ℤ) = (2 : ℚ) ^ e * 2 ^ ((52 : ℤ) - e) := by
          rw [← zpow_add₀ (two_ne_zero), show e + ((52 : ℤ) - e) = (52 : ℤ) by ring]
      _ ≤ x * 2 ^ ((52 : ℤ) - e) := by
          exact mul_le_mul_of_nonneg_right hel (by positivity)
  have hfl : ((2 : ℤ) ^ (52 : ℕ)) ≤ roundHalfEven (x * 2 ^ ((52 : ℤ) - e)) := by
    refine le_trans ?_ (le_roundHalfEven _)
    rw [Int.le_floor]
    calc ((((2 : ℤ) ^ (52 : ℕ)) : ℤ) : ℚ) = (2 : ℚ) ^ (52 : ℤ) := by
          norm_num
      _ ≤ x * 2 ^ ((52 : ℤ) - e) := hsc
  calc (2 : ℚ) ^ e = (2 : ℚ) ^ (52 : ℤ) * 2 ^ (e - 52) := by
        rw [← zpow_add₀ (two_ne_zero), show (52 : ℤ) + (e - 52) = e by ring]
    _ ≤ ((roundHalfEven (x * 2 ^ ((52 : ℤ) - e)) : ℤ) : ℚ) * 2 ^ (e - 52) := by
        refine mul_le_mul_of_nonneg_right ?_ (by positivity)
        calc (2 : ℚ) ^ (52 : ℤ) = ((((2 : ℤ) ^ (52 : ℕ)) : ℤ) : ℚ) := by
              norm_num
          _ ≤ _ := by exact_mod_cast hfl

theorem floatRound_le {x : ℚ} (hx : 0 < x) : floatRound x ≤ (2 : ℚ) ^ (exp2Floor x + 1) := by
  rw [floatRound, if_neg (not_le.mpr hx)]
  obtain ⟨_, her⟩ := exp2Floor_spec hx
  set e := exp2Floor x with he
  have hsc : x * 2 ^ ((52 : ℤ) - e) < (2 : ℚ) ^ (53 : ℤ) := by
    calc x * 2 ^ ((52 : ℤ) - e) < (2 : ℚ) ^ (e + 1) * 2 ^ ((52 : ℤ) - e) := by
          exact mul_lt_mul_of_pos_right her (by positivity)
      _ = (2 : ℚ) ^ (53 : ℤ) := by
          rw [← zpow_add₀ (two_ne_zero), show e + 1 + ((52 : ℤ) - e) = (53 : ℤ) by ring]
  have hfl : roundHalfEven (x * 2 ^ ((52 : ℤ) - e)) ≤ ((2 : ℤ) ^ (53 : ℕ)) := by
    refine le_trans (roundHalfEven_le _) ?_
    have : ⌊x * 2 ^ ((52 : ℤ) - e)⌋ < ((2 : ℤ) ^ (53 : ℕ)) := by
      rw [Int.floor_lt]
      calc x * 2 ^ ((52 : ℤ) - e) < (2 : ℚ) ^ (53 : ℤ) := hsc
        _ = ((((2 : ℤ) ^ (53 : ℕ)) : ℤ) : ℚ) := by
            norm_num
    omega
  calc ((roundHalfEven (x * 2 ^ ((52 : ℤ) - e)) : ℤ) : ℚ) * 2 ^ (e - 52)
      ≤ (2 : ℚ) ^ (53 : ℤ) * 2 ^ (e - 52) := by
        refine mul_le_mul_of_nonneg_right ?_ (by positivity)
        calc ((roundHalfEven (x * 2 ^ ((52 : ℤ) - e)) : ℤ) : ℚ)
            ≤ ((((2 : ℤ) ^ (53 : ℕ)) : ℤ) : ℚ) := by exact_mod_cast hfl
          _ = (2 : ℚ) ^ (53 : ℤ) := by
              norm_num
    _ = (2 : ℚ) ^ (e + 1) := by
        rw [← zpow_add₀ (two_ne_zero), show (53 : ℤ) + (e - 52) = e + 1 by ring]

theorem floatRound_pos {x : ℚ} (hx : 0 < x) : 0 < floatRound x :=
  lt_of_lt_of_le (by positivity) (floatRound_ge hx)

theorem floatRound_mono {x y : ℚ} (hx : 0 < x) (h : x ≤ y) :
    floatRound x ≤ floatRound y := by
  have hy : 0 < y := lt_of_lt_of_le hx h
  have hexy : exp2Floor x ≤ exp2Floor y := by
    by_contra hcon
    push_neg at hcon
    have h1 : (2 : ℚ) ^ exp2Floor y ≤ y := (exp2Floor_spec hy).1
    have h2 : y < (2 : ℚ) ^ (exp2Floor y + 1) := (exp2Floor_spec hy).2
    have h3 : (2 : ℚ) ^ exp2Floor x ≤ x := (exp2Floor_spec hx).1
    have h4 : (2 : ℚ) ^ (exp2Floor y + 1) ≤ (2 : ℚ) ^ exp2Floor x :=
      zpow_le_zpow_right₀ (by norm_num) (by omega)
    linarith
  rcases eq_or_lt_of_le hexy with heq | hlt
  · rw [floatRound, floatRound, if_neg (not_le.mpr hx), if_neg (not_le.mpr hy), ← heq]
    refine mul_le_mul_of_nonneg_right ?_ (by positivity)
    exact_mod_cast roundHalfEven_mono (mul_le_mul_of_nonneg_right h (by positivity))
  · calc floatRound x ≤ (2 : ℚ) ^ (exp2Floor x + 1) := floatRound_le hx
      _ ≤ (2 : ℚ) ^ exp2Floor y := zpow_le_zpow_right₀ (by norm_num) (by omega)
      _ ≤ floatRound y := floatRound_ge hy

theorem pyPercentFloor_mono {n t1 t2 : Nat} (ht : 0 < t1) (hn : 0 < n) (h : t1 ≤ t2) :
    pyPercentFloor t1 n ≤ pyPercentFloor t2 n := by
  have hnq : (0 : ℚ) < (n : ℚ) := by exact_mod_cast hn
  have hx1 : (0 : ℚ) < (t1 : ℚ) / (n : ℚ) := by
    apply div_pos _ hnq
    exact_mod_cast ht
  have hdiv : (t1 : ℚ) / (n : ℚ) ≤ (t2 : ℚ) / (n : ℚ) := by
    have ht2 : (t1 : ℚ) ≤ (t2 : ℚ) := by exact_mod_cast h
    gcongr
  have h1 : floatRound ((t1 : ℚ) / (n : ℚ)) ≤ floatRound ((t2 : ℚ) / (n : ℚ)) :=
    floatRound_mono hx1 hdiv
  have hp1 : (0 : ℚ) < floatRound ((t1 : ℚ) / (n : ℚ)) := floatRound_pos hx1
  have h2 : floatRound ((t1 : ℚ) / (n : ℚ)) * 100 ≤ floatRound ((t2 : ℚ) / (n : ℚ)) * 100 := by
    linarith
  exact Int.floor_le_floor (floatRound_mono (by positivity) h2)

/- Helper lemmas about the relocation engine. -/

theorem relocStep_spec (p : String) (s : RelocStats) (e : RelocEvent) :
    (relocStep p s e).total_count
      = s.total_count
        + (if relocOutcome p e = RelocOutcome.moved ∨ relocOutcome p e = RelocOutcome.copied
           then 1 else 0)
    ∧ (relocStep p s e).total_count_moved
      = s.total_count_moved + (if relocOutcome p e = RelocOutcome.moved then 1 else 0) := by
  obtain ⟨f, t, sz, b⟩ := e
  simp only [relocStep, relocOutcome, move_or_copy_file]
  by_cases h1 : (split_root_extension f).2
      ∈ ((dict_transcode_tool_platform_get p "encode").2.1).map Prod.fst
  · rw [if_pos h1, if_pos h1]
    cases b <;> simp
  · by_cases h2 : (split_root_extension f).2 ∈ (main_and_relevant_files_for_audio_get t).drop 1
    · rw [if_neg h1, if_pos h2, if_neg h1, if_pos h2]
      cases b <;> simp
    · rw [if_neg h1, if_neg h2, if_neg h1, if_neg h2]
      simp

theorem runRelocFrom_spec (p : String) (events : List RelocEvent) : ∀ s : RelocStats,
    (events.foldl (relocStep p) s).total_count
      = s.total_count + movedCount p events + copiedCount p events
    ∧ (events.foldl (relocStep p) s).total_count_moved
      = s.total_count_moved + movedCount p events := by
  induction events with
  | nil => intro s; simp [movedCount, copiedCount]
  | cons e es ih =>
    intro s
    obtain ⟨ih1, ih2⟩ := ih (relocStep p s e)
    obtain ⟨st1, st2⟩ := relocStep_spec p s e
    simp only [List.foldl_cons, movedCount, copiedCount, List.countP_cons] at *
    rw [ih1, ih2, st1, st2]
    by_cases hm : relocOutcome p e = RelocOutcome.moved <;>
      by_cases hc : relocOutcome p e = RelocOutcome.copied <;>
      simp [hm, hc] <;> omega

/-- C1, counterexample. The claim says a file handed to the relocation step is
moved iff its extension is a recognized transcode source extension for the
active target format. With target format opus, the extension wav is such a
recognized source extension (spec_move_eligible), yet move_or_copy_file
neither moves nor copies the file song.wav: the move test uses the format
keys of the dictionary, not the per-format source-extension set. -/
theorem move_iff_spec_source_extension_refuted :
    (move_or_copy_file "Linux" "song.wav" "opus" 100 true ⟨0, 0, 0⟩).1 = RelocOutcome.ignored
    ∧ (move_or_copy_file "Linux" "song.wav" "opus" 100 true ⟨0, 0, 0⟩).1 ≠ RelocOutcome.moved
    ∧ spec_move_eligible "opus" "wav" = true := by
  decide

/-- C1, amended. For every file handed to move_or_copy_file with the
underlying shutil call succeeding: the file is moved iff its lower-cased
extension is one of the registry format keys (opus, flac) — independent of the
active target format; it is copied iff its extension is one of the companion
extensions (the tail of main_and_relevant_files_for_audio_get: mpc, jpg,
jpeg, png, pls, rtf, txt, accurip), the copy leaving the source in place; and
it is ignored iff it matches neither set. -/
theorem move_copy_classification_amended :
    ∀ (p f t : String) (sz : Nat) (s : RelocStats),
    ((move_or_copy_file p f t sz true s).1 = RelocOutcome.moved
      ↔ (split_root_extension f).2 ∈ (dict_valid_source_get "encode").map Prod.fst)
    ∧ ((move_or_copy_file p f t sz true s).1 = RelocOutcome.copied
      ↔ (split_root_extension f).2 ∈ (main_and_relevant_files_for_audio_get t).drop 1)
    ∧ ((move_or_copy_file p f t sz true s).1 = RelocOutcome.ignored
      ↔ ((split_root_extension f).2 ∉ (dict_valid_source_get "encode").map Prod.fst
          ∧ (split_root_extension f).2 ∉ (main_and_relevant_files_for_audio_get t).drop 1)) := by
  intro p f t sz s
  by_cases h1 : (split_root_extension f).2
      ∈ ((dict_transcode_tool_platform_get p "encode").2.1).map Prod.fst
  · have hd : (split_root_extension f).2 ∉ (main_and_relevant_files_for_audio_get t).drop 1 := by
      have h1x : (split_root_extension f).2 ∈ (["opus", "flac"] : List String) := h1
      intro hc
      have hcx : (split_root_extension f).2
          ∈ (["mpc", "jpg", "jpeg", "png", "pls", "rtf", "txt", "accurip"] : List String) := hc
      rcases List.mem_cons.mp h1x with h | h
      · rw [h] at hcx; revert hcx; decide
      · have h : (split_root_extension f).2 = "flac" := by simpa using h
        rw [h] at hcx; revert hcx; decide
    have heq : (move_or_copy_file p f t sz true s).1 = RelocOutcome.moved := by
      unfold move_or_copy_file
      rw [if_pos h1]
      rfl
    refine ⟨iff_of_true heq h1, iff_of_false ?_ hd, iff_of_false ?_ ?_⟩
    · rw [heq]; decide
    · rw [heq]; decide
    · intro hc; exact hc.1 h1
  · by_cases h2 : (split_root_extension f).2 ∈ (main_and_relevant_files_for_audio_get t).drop 1
    · have heq : (move_or_copy_file p f t sz true s).1 = RelocOutcome.copied := by
        unfold move_or_copy_file
        rw [if_neg h1, if_pos h2]
        rfl
      refine ⟨iff_of_false ?_ h1, iff_of_true heq h2, iff_of_false ?_ ?_⟩
      · rw [heq]; decide
      · rw [heq]; decide
      · intro hc; exact hc.2 h2
    · have heq : (move_or_copy_file p f t sz true s).1 = RelocOutcome.ignored := by
        unfold move_or_copy_file
        rw [if_neg h1, if_neg h2]
      exact ⟨iff_of_false (by rw [heq]; decide) h1,
             iff_of_false (by rw [heq]; decide) h2,
             iff_of_true heq ⟨h1, h2⟩⟩

/-- C2. Partition and counter invariant of the relocation step: every file
whose underlying shutil call succeeds ends in exactly one of the outcomes
moved, copied, ignored; and after any sequence of relocation calls starting
from the zero-initialised counters, the processed-file counter equals the
moved-file counter plus the number of successful copies (so the copied count
is derivable as processed minus moved, which is how statistic_print reports
it at source lines 739-743). -/
theorem relocation_partition_counter_invariant :
    (∀ (p f t : String) (sz : Nat) (s : RelocStats),
      ((move_or_copy_file p f t sz true s).1 = RelocOutcome.moved
          ∧ (move_or_copy_file p f t sz true s).1 ≠ RelocOutcome.copied
          ∧ (move_or_copy_file p f t sz true s).1 ≠ RelocOutcome.ignored)
      ∨ ((move_or_copy_file p f t sz true s).1 = RelocOutcome.copied
          ∧ (move_or_copy_file p f t sz true s).1 ≠ RelocOutcome.moved
          ∧ (move_or_copy_file p f t sz true s).1 ≠ RelocOutcome.ignored)
      ∨ ((move_or_copy_file p f t sz true s).1 = RelocOutcome.ignored
          ∧ (move_or_copy_file p f t sz true s).1 ≠ RelocOutcome.moved
          ∧ (move_or_copy_file p f t sz true s).1 ≠ RelocOutcome.copied))
    ∧ (∀ (p : String) (events : List RelocEvent),
      (runReloc p events).total_count
        = (runReloc p events).total_count_moved + copiedCount p events) := by
  constructor
  · intro p f t sz s
    by_cases h1 : (split_root_extension f).2
        ∈ ((dict_transcode_tool_platform_get p "encode").2.1).map Prod.fst
    · have heq : (move_or_copy_file p f t sz true s).1 = RelocOutcome.moved := by
        unfold move_or_copy_file
        rw [if_pos h1]
        rfl
      left
      rw [heq]
      exact ⟨rfl, by decide, by decide⟩
    · by_cases h2 : (split_root_extension f).2 ∈ (main_and_relevant_files_for_audio_get t).drop 1
      · have heq : (move_or_copy_file p f t sz true s).1 = RelocOutcome.copied := by
          unfold move_or_copy_file
          rw [if_neg h1, if_pos h2]
          rfl
        right; left
        rw [heq]
        exact ⟨rfl, by decide, by decide⟩
      · have heq : (move_or_copy_file p f t sz true s).1 = RelocOutcome.ignored := by
          unfold move_or_copy_file
          rw [if_neg h1, if_neg h2]
        right; right
        rw [heq]
        exact ⟨rfl, by decide, by decide⟩
  · intro p events
    obtain ⟨h1, h2⟩ := runRelocFrom_spec p events ⟨0, 0, 0⟩
    unfold runReloc
    rw [h1, h2]

/-- C9. When the underlying shutil move or copy raises, move_or_copy_file
leaves the whole statistics record unchanged: the processed-file counter, the
moved-file counter and the accumulated byte total keep their previous
values. -/
theorem relocation_failure_preserves_stats :
    ∀ (p f t : String) (sz : Nat) (s : RelocStats),
    (move_or_copy_file p f t sz false s).2 = s := by
  intro p f t sz s
  simp only [move_or_copy_file]
  by_cases h1 : (split_root_extension f).2
      ∈ ((dict_transcode_tool_platform_get p "encode").2.1).map Prod.fst
  · rw [if_pos h1]
    rfl
  · rw [if_neg h1]
    by_cases h2 : (split_root_extension f).2 ∈ (main_and_relevant_files_for_audio_get t).drop 1
    · rw [if_pos h2]
      rfl
    · rw [if_neg h2]

theorem transcodeResolve_extension_prev (p eo e op : String) (fs : List String)
    (c : Option TCacheEntry) : (transcodeResolve p eo e op fs c).extension_prev = eo := by
  cases c with
  | none => rfl
  | some entry =>
    show (if entry.extension_prev = eo then entry
          else transcodeFresh p eo e op fs).extension_prev = eo
    by_cases h : entry.extension_prev = eo
    · rw [if_pos h]
      exact h
    · rw [if_neg h]
      rfl

theorem transcodeResolve_idem (p eo e op : String) (fs : List String) (c : Option TCacheEntry) :
    transcodeResolve p eo e op fs (some (transcodeResolve p eo e op fs c))
      = transcodeResolve p eo e op fs c := by
  have h := transcodeResolve_extension_prev p eo e op fs c
  have hdef : transcodeResolve p eo e op fs (some (transcodeResolve p eo e op fs c))
      = if (transcodeResolve p eo e op fs c).extension_prev = eo
        then transcodeResolve p eo e op fs c
        else transcodeFresh p eo e op fs := rfl
  rw [hdef, if_pos h]

theorem transcode_skip_branch (plat path fmt op : String) (ts : Bool) (fs : List String)
    (s : TranscodeState)
    (hval : (transcodeResolve plat (split_root_extension path).2 (pyLower fmt) op fs
        s.cache).is_valid_source_prev = true)
    (hmem : ((split_root_extension path).1 ++ "."
        ++ (transcodeResolve plat (split_root_extension path).2 (pyLower fmt) op fs
              s.cache).target_prev) ∈ fs) :
    transcode_source_audio plat path fmt op false ts fs s
      = { returned := some ((split_root_extension path).1 ++ "."
            ++ (transcodeResolve plat (split_root_extension path).2 (pyLower fmt) op fs
                  s.cache).target_prev),
          outcome := TOutcome.skippedExisting, toolInvoked := false, fs := fs,
          state := { s with cache := some (transcodeResolve plat (split_root_extension path).2
            (pyLower fmt) op fs s.cache) },
          report := percentReport s.total_count_source s.total_count_transcode } := by
  simp only [transcode_source_audio]
  rw [if_pos hval, if_neg (not_not_intro hmem)]
  rfl

/-- C3. For every eligible source file whose computed output path already
exists in the file system, transcode_source_audio (normal mode) skips: the
outcome is skippedExisting, the external tool is not invoked, the file system
is unchanged (the existing output is never altered), both counters keep their
values, and the computed target path is still returned. Calling the dispatcher
a second time on the resulting state and file system skips again. -/
theorem transcode_skip_existing_idempotent :
    ∀ (plat path fmt op : String) (ts : Bool) (fs : List String) (s : TranscodeState),
    (transcodeResolve plat (split_root_extension path).2 (pyLower fmt) op fs
        s.cache).is_valid_source_prev = true →
    ((split_root_extension path).1 ++ "."
        ++ (transcodeResolve plat (split_root_extension path).2 (pyLower fmt) op fs
              s.cache).target_prev) ∈ fs →
    ((transcode_source_audio plat path fmt op false ts fs s).outcome = TOutcome.skippedExisting
     ∧ (transcode_source_audio plat path fmt op false ts fs s).toolInvoked = false
     ∧ (transcode_source_audio plat path fmt op false ts fs s).fs = fs
     ∧ (transcode_source_audio plat path fmt op false ts fs s).returned
        = some ((split_root_extension path).1 ++ "."
            ++ (transcodeResolve plat (split_root_extension path).2 (pyLower fmt) op fs
                  s.cache).target_prev)
     ∧ (transcode_source_audio plat path fmt op false ts fs s).state.total_count_transcode
        = s.total_count_transcode
     ∧ (transcode_source_audio plat path fmt op false ts fs s).state.total_count_source
        = s.total_count_source
     ∧ (transcode_source_audio plat path fmt op false ts
          (transcode_source_audio plat path fmt op false ts fs s).fs
          (transcode_source_audio plat path fmt op false ts fs s).state).outcome
        = TOutcome.skippedExisting
     ∧ (transcode_source_audio plat path fmt op false ts
          (transcode_source_audio plat path fmt op false ts fs s).fs
          (transcode_source_audio plat path fmt op false ts fs s).state).toolInvoked = false
     ∧ (transcode_source_audio plat path fmt op false ts
          (transcode_source_audio plat path fmt op false ts fs s).fs
          (transcode_source_audio plat path fmt op false ts fs s).state).fs = fs) := by
  intro plat path fmt op ts fs s hval hmem
  have h1 := transcode_skip_branch plat path fmt op ts fs s hval hmem
  have hval2 : (transcodeResolve plat (split_root_extension path).2 (pyLower fmt) op fs
      (({ s with cache := some (transcodeResolve plat (split_root_extension path).2
        (pyLower fmt) op fs s.cache) } : TranscodeState)).cache).is_valid_source_prev = true := by
    show (transcodeResolve plat (split_root_extension path).2 (pyLower fmt) op fs
      (some (transcodeResolve plat (split_root_extension path).2 (pyLower fmt) op fs
        s.cache))).is_valid_source_prev = true
    rw [transcodeResolve_idem]
    exact hval
  have hmem2 : ((split_root_extension path).1 ++ "."
      ++ (transcodeResolve plat (split_root_extension path).2 (pyLower fmt) op fs
          (({ s with cache := some (transcodeResolve plat (split_root_extension path).2
            (pyLower fmt) op fs s.cache) } : TranscodeState)).cache).target_prev) ∈ fs := by
    show ((split_root_extension path).1 ++ "."
      ++ (transcodeResolve plat (split_root_extension path).2 (pyLower fmt) op fs
        (some (transcodeResolve plat (split_root_extension path).2 (pyLower fmt) op fs
          s.cache))).target_prev) ∈ fs
    rw [transcodeResolve_idem]
    exact hmem
  have h2 := transcode_skip_branch plat path fmt op ts fs
    ({ s with cache := some (transcodeResolve plat (split_root_extension path).2
      (pyLower fmt) op fs s.cache) } : TranscodeState) hval2 hmem2
  rw [h1]
  exact ⟨rfl, rfl, rfl, rfl, rfl, rfl, by rw [h2], by rw [h2], by rw [h2]⟩

theorem transcode_skip_existing_idempotent_witness :
    (transcodeResolve "Linux" (split_root_extension "/a/track.wav").2 (pyLower "opus") "encode"
        ["/a/track.opus"] (none : Option TCacheEntry)).is_valid_source_prev = true
    ∧ (transcode_source_audio "Linux" "/a/track.wav" "opus" "encode" false true ["/a/track.opus"]
        { total_count_transcode := 0, total_count_source := 0, cache := none,
          files_failed := [] }).outcome = TOutcome.skippedExisting := by
  have h := transcode_skip_existing_idempotent "Linux" "/a/track.wav" "opus" "encode" true
    ["/a/track.opus"]
    { total_count_transcode := 0, total_count_source := 0, cache := none, files_failed := [] }
    (by decide) (by decide)
  exact ⟨by decide, h.1⟩

/-- C10. Return value of the dispatcher per mode: in normal mode the computed
target path (source root plus extension separator plus the resolved output
extension) is returned for every input, whatever the outcome — ineligible
file, missing tool, skipped existing output, failed or successful invocation;
in percentage-gather mode every eligible file yields None, whether or not its
output already exists. A freshly resolved cache carries precisely the
registry output extension for the requested format and operation. -/
theorem transcode_return_path_modes :
    (∀ (plat path fmt op : String) (ts : Bool) (fs : List String) (s : TranscodeState),
      (transcode_source_audio plat path fmt op false ts fs s).returned
        = some ((split_root_extension path).1 ++ "."
            ++ (transcodeResolve plat (split_root_extension path).2 (pyLower fmt) op fs
                  s.cache).target_prev))
    ∧ (∀ (plat path fmt op : String) (ts : Bool) (fs : List String) (s : TranscodeState),
      (transcodeResolve plat (split_root_extension path).2 (pyLower fmt) op fs
          s.cache).is_valid_source_prev = true →
      (transcode_source_audio plat path fmt op true ts fs s).returned = none)
    ∧ (∀ (plat eo e op : String) (fs : List String),
      (transcodeResolve plat eo e op fs none).target_prev = output_extension e op) := by
  refine ⟨?_, ?_, ?_⟩
  · intro plat path fmt op ts fs s
    simp only [transcode_source_audio]
    split_ifs <;> simp_all
  · intro plat path fmt op ts fs s hval
    simp only [transcode_source_audio]
    rw [if_pos hval]
    by_cases hm : ((split_root_extension path).1 ++ "."
        ++ (transcodeResolve plat (split_root_extension path).2 (pyLower fmt) op fs
              s.cache).target_prev) ∉ fs
    · rw [if_pos hm]
      rfl
    · rw [if_neg hm]
      rfl
  · intro plat eo e op fs
    rfl

theorem transcode_return_path_modes_witness :
    (transcodeResolve "Linux" (split_root_extension "/a/t.wav").2 (pyLower "opus") "encode"
        ([] : List String) (none : Option TCacheEntry)).is_valid_source_prev = true
    ∧ (transcode_source_audio "Linux" "/a/t.wav" "opus" "encode" true true ([] : List String)
        { total_count_transcode := 0, total_count_source := 0, cache := none,
          files_failed := [] }).returned = none := by
  exact ⟨by decide, transcode_return_path_modes.2.1 "Linux" "/a/t.wav" "opus" "encode" true []
    { total_count_transcode := 0, total_count_source := 0, cache := none, files_failed := [] }
    (by decide)⟩

set_option maxRecDepth 10000 in
/-- C5, counterexample. The claim says the reported percentage is the exact
floor of (transcoded / eligible) * 100. With 100 eligible files, completing
the 29th transcode makes the dispatcher print 28 percent, because the Python
float value of 29/100 lies just below the exact ratio and the product with
100 falls below 29; the exact floor is 29. -/
theorem progress_floor_formula_refuted :
    (transcode_source_audio "Linux" "/m/track.wav" "opus" "encode" false true
        ["/usr/bin/opusenc"]
        { total_count_transcode := 28, total_count_source := 100, cache := none,
          files_failed := [] }).report = some (PReport.percent 28)
    ∧ ((28 : ℤ) ≠ ⌊((29 : ℚ) / 100) * 100⌋) := by
  constructor
  · with_unfolding_all decide
  · with_unfolding_all decide

/-- C5, amended. The report logic of the dispatcher: nothing is reported
unless both counters are positive; while the transcoded counter is below the
eligible counter the report is the floor of the double-precision evaluation
of (transcoded / eligible) * 100 (which can fall one below the exact floor at
representation boundaries); when the transcoded counter reaches the eligible
counter the all-files-transcoded message (the hundred-percent report) is
printed; the reported value is non-decreasing in the transcoded counter; and
in normal mode every eligible file ends with exactly the report computed from
the post-call counters. -/
theorem progress_report_amended :
    (∀ n t : Nat, percentReport n t = none ↔ (n = 0 ∨ t = 0))
    ∧ (∀ n t : Nat, 0 < t → t < n →
        percentReport n t = some (PReport.percent (pyPercentFloor t n)))
    ∧ (∀ n t : Nat, 0 < t → 0 < n → n ≤ t → percentReport n t = some PReport.allDone)
    ∧ (∀ (n t1 t2 : Nat), 0 < t1 → 0 < n → t1 ≤ t2 →
        pyPercentFloor t1 n ≤ pyPercentFloor t2 n)
    ∧ (∀ (plat path fmt op : String) (ts : Bool) (fs : List String) (s : TranscodeState),
        (transcodeResolve plat (split_root_extension path).2 (pyLower fmt) op fs
            s.cache).is_valid_source_prev = true →
        (transcode_source_audio plat path fmt op false ts fs s).report
          = percentReport
              (transcode_source_audio plat path fmt op false ts fs s).state.total_count_source
              (transcode_source_audio plat path fmt op false ts fs s).state.total_count_transcode) := by
  refine ⟨?_, ?_, ?_, ?_, ?_⟩
  · intro n t
    unfold percentReport
    split_ifs with h
    · exact iff_of_false (by simp) (by omega)
    · exact iff_of_true rfl (by omega)
  · intro n t ht hlt
    unfold percentReport
    rw [if_pos ⟨by omega, by omega⟩, if_pos hlt]
  · intro n t ht hn hle
    unfold percentReport
    rw [if_pos ⟨by omega, by omega⟩, if_neg (by omega)]
  · intro n t1 t2 h1 h2 h3
    exact pyPercentFloor_mono h1 h2 h3
  · intro plat path fmt op ts fs s hval
    simp only [transcode_source_audio]
    rw [if_pos hval]
    split_ifs <;> simp_all

set_option maxRecDepth 10000 in
theorem progress_report_amended_witness :
    ((0:Nat) < 1 ∧ (1:Nat) < 2 ∧ percentReport 2 1 = some (PReport.percent (pyPercentFloor 1 2)))
    ∧ ((0:Nat) < 2 ∧ percentReport 2 2 = some PReport.allDone)
    ∧ pyPercentFloor 1 2 ≤ pyPercentFloor 2 2
    ∧ (transcode_source_audio "Linux" "/a/t.wav" "opus" "encode" false true ([] : List String)
        { total_count_transcode := 0, total_count_source := 0, cache := none,
          files_failed := [] }).report
      = percentReport
          (transcode_source_audio "Linux" "/a/t.wav" "opus" "encode" false true ([] : List String)
            { total_count_transcode := 0, total_count_source := 0, cache := none,
              files_failed := [] }).state.total_count_source
          (transcode_source_audio "Linux" "/a/t.wav" "opus" "encode" false true ([] : List String)
            { total_count_transcode := 0, total_count_source := 0, cache := none,
              files_failed := [] }).state.total_count_transcode := by
  refine ⟨⟨by decide, by decide, progress_report_amended.2.1 2 1 (by decide) (by decide)⟩,
    ⟨by decide, progress_report_amended.2.2.1 2 2 (by decide) (by decide) (by decide)⟩,
    progress_report_amended.2.2.2.1 2 1 2 (by decide) (by decide) (by decide),
    progress_report_amended.2.2.2.2 "Linux" "/a/t.wav" "opus" "encode" true []
      { total_count_transcode := 0, total_count_source := 0, cache := none, files_failed := [] }
      (by decide)⟩

theorem afterFirst_append_self {sep : List Char} (h : sep ≠ []) (rest : List Char) :
    afterFirst sep (sep ++ rest) = some rest := by
  obtain ⟨c, sep', rfl⟩ : ∃ c sep', sep = c :: sep' := by
    cases sep with
    | nil => exact absurd rfl h
    | cons c sep' => exact ⟨c, sep', rfl⟩
  show afterFirst (c :: sep') (c :: (sep' ++ rest)) = some rest
  have hpre : (c :: sep').isPrefixOf (c :: (sep' ++ rest)) = true := by
    rw [List.isPrefixOf_iff_prefix]
    exact ⟨rest, by simp⟩
  unfold afterFirst
  rw [if_pos hpre]
  simp [List.drop_left]

theorem afterFirst_none_of_short {sep : List Char} : ∀ {l : List Char},
    l.length < sep.length → afterFirst sep l = none := by
  intro l
  induction l with
  | nil =>
    intro hlen
    have hne : ¬ sep.isPrefixOf ([] : List Char) = true := by
      rw [List.isPrefixOf_iff_prefix]
      intro hp
      have h2 := hp.length_le
      simp only [List.length_nil] at hlen h2
      omega
    unfold afterFirst
    rw [if_neg hne]
  | cons c rest ih =>
    intro hlen
    have hne : ¬ sep.isPrefixOf (c :: rest) = true := by
      rw [List.isPrefixOf_iff_prefix]
      intro hp
      have h2 := hp.length_le
      simp only [List.length_cons] at hlen h2
      omega
    unfold afterFirst
    rw [if_neg hne]
    apply ih
    simp only [List.length_cons] at hlen
    omega

theorem mem_basename_ne_slash {p : List Char} {x : Char} (hx : x ∈ basename p) :
    (x == '/') = false := by
  unfold basename at hx
  rw [List.mem_reverse] at hx
  have := List.mem_takeWhile_imp hx
  simpa using this

theorem basename_head_ne_slash (p : List Char) : (basename p).head? ≠ some '/' := by
  cases hb : basename p with
  | nil => simp
  | cons h t =>
    have hmem : h ∈ basename p := by
      rw [hb]
      exact List.mem_cons_self h t
    have hne := mem_basename_ne_slash hmem
    simp only [List.head?_cons, ne_eq, Option.some.injEq]
    intro hc
    rw [hc] at hne
    simp at hne

theorem basename_concat {r : List Char} {c : Char} (hc : (c == '/') = false) :
    basename (r ++ [c]) = (r.reverse.takeWhile (fun x => !(x == '/'))).reverse ++ [c] := by
  unfold basename
  rw [List.reverse_append]
  simp only [List.reverse_cons, List.reverse_nil, List.nil_append, List.singleton_append,
    List.takeWhile_cons, hc]
  simp [List.reverse_cons]

theorem basename_concat_getLast {r : List Char} {c : Char} (hc : (c == '/') = false) :
    (basename (r ++ [c])).getLast? = some c ∧ basename (r ++ [c]) ≠ [] := by
  rw [basename_concat hc]
  constructor
  · exact List.getLast?_concat _
  · simp

theorem pyJoin_sep_glue {a b : List Char} (ha : a ≠ []) (hal : a.getLast? ≠ some '/')
    (hb : b.head? ≠ some '/') : pyJoin a b = a ++ '/' :: b := by
  unfold pyJoin
  rw [if_neg hb, if_neg]
  push_neg
  exact ⟨ha, hal⟩

theorem destinationHead_eq (root dest : List Char) (hdest : dest.head? = some '/') :
    destinationHead root dest = dest ++ '/' :: basename root := by
  unfold destinationHead
  have h1 : pyJoin ['/'] (dest ++ ['/']) = dest ++ ['/'] := by
    unfold pyJoin
    rw [if_pos]
    cases dest with
    | nil => simp at hdest
    | cons d ds =>
      simp only [List.head?_cons, Option.some.injEq] at hdest
      simp [hdest]
  rw [h1]
  have h2 : (dest ++ ['/']).getLast? = some '/' := List.getLast?_concat _
  have h3 : (basename root).head? ≠ some '/' := basename_head_ne_slash root
  unfold pyJoin
  rw [if_neg h3, if_pos (Or.inr h2)]
  simp

/-- C4. Destination mirroring. For a source file walked at directory
root ++ "/" ++ rel (rel the relative remainder, non-empty and relative) with
an absolute destination root dest, the planned destination directory is
dest/basename(root)/rel, exactly as the claim states. When the walked
directory equals the source root the relative remainder is empty and the
planned directory is the destination head itself (the code spells it with one
trailing separator, the same directory). -/
theorem destination_mirroring :
    ∀ (dest root rel r : List Char) (c : Char),
    root = r ++ [c] → (c == '/') = false → dest.head? = some '/' →
    rel ≠ [] → rel.head? ≠ some '/' →
    (planDestinationDir root (root ++ '/' :: rel) (destinationHead root dest)
        = dest ++ '/' :: (basename root ++ '/' :: rel))
    ∧ stripTrailingSlashes (planDestinationDir root root (destinationHead root dest))
        = destinationHead root dest := by
  intro dest root rel r c hroot hc hdest hrel hrelh
  have hdh := destinationHead_eq root dest hdest
  have hdl : (destinationHead root dest).getLast? = some c := by
    rw [hdh, hroot, basename_concat hc,
      show dest ++ '/' :: ((r.reverse.takeWhile (fun x => !(x == '/'))).reverse ++ [c])
        = (dest ++ '/' :: (r.reverse.takeWhile (fun x => !(x == '/'))).reverse) ++ [c] by simp]
    exact List.getLast?_concat _
  have hdne : destinationHead root dest ≠ [] := by
    rw [hdh]
    simp
  have hdl' : (destinationHead root dest).getLast? ≠ some '/' := by
    rw [hdl]
    simp only [ne_eq, Option.some.injEq]
    intro hcc
    rw [hcc] at hc
    simp at hc
  constructor
  · have hpart : pyPartitionAfter (root ++ '/' :: rel) (root ++ ['/']) = rel := by
      unfold pyPartitionAfter
      rw [show root ++ '/' :: rel = (root ++ ['/']) ++ rel by simp,
        afterFirst_append_self (by simp) rel]
      rfl
    unfold planDestinationDir
    rw [hpart, pyJoin_sep_glue hdne hdl' hrelh, hdh]
    simp
  · have hpart2 : pyPartitionAfter root (root ++ ['/']) = [] := by
      unfold pyPartitionAfter
      rw [afterFirst_none_of_short (by simp)]
      rfl
    unfold planDestinationDir
    rw [hpart2, pyJoin_sep_glue hdne hdl' (by simp)]
    unfold stripTrailingSlashes
    rw [List.reverse_append]
    simp only [List.reverse_cons, List.reverse_nil, List.nil_append, List.singleton_append,
      List.dropWhile_cons]
    have hpred : (('/' : Char) == '/') = true := by decide
    rw [hpred]
    simp only [if_true]
    have hrev : (destinationHead root dest).reverse.head? = some c := by
      rw [List.head?_reverse]
      exact hdl
    cases hcase : (destinationHead root dest).reverse with
    | nil =>
      rw [hcase] at hrev
      simp at hrev
    | cons x xs =>
      rw [hcase] at hrev
      simp only [List.head?_cons, Option.some.injEq] at hrev
      rw [List.dropWhile_cons, hrev, hc]
      simp only [Bool.false_eq_true, if_false]
      rw [← hrev, ← hcase, List.reverse_reverse]

theorem destination_mirroring_witness :
    ("Music".toList = "Musi".toList ++ ['c'])
    ∧ planDestinationDir "Music".toList ("Music".toList ++ '/' :: "Album".toList)
        (destinationHead "Music".toList "/out".toList)
      = "/out".toList ++ '/' :: (basename "Music".toList ++ '/' :: "Album".toList)
    ∧ stripTrailingSlashes (planDestinationDir "Music".toList "Music".toList
        (destinationHead "Music".toList "/out".toList))
      = destinationHead "Music".toList "/out".toList := by
  have h := destination_mirroring "/out".toList "Music".toList "Album".toList
      "Musi".toList 'c' (by decide) (by decide) (by decide) (by decide) (by decide)
  exact ⟨by decide, h.1, h.2⟩

set_option maxRecDepth 10000 in
/-- C8. Evaluation of the elapsed-time formatter at the failing input of
ninety seconds (90e9 nanoseconds): the rendered triple is 0 hours, 2 minutes,
30 seconds, although the hours/minutes/seconds decomposition of ninety
seconds is 1 minute 30 seconds — the minutes field is round(seconds / 60),
half-even rounding rather than integer division, while the seconds field is
the remainder modulo 60. The companion evaluations show the two rendering
claims that do hold: half a second renders with two-decimal precision as 1/2,
and thirty seconds render as the whole-second 30. -/
theorem hms_decomposition_bug_at_90s :
    total_time_in_hms_get 90000000000 = (0, 2, 30)
    ∧ (90000000000 : ℤ) / 1000000000 / 60 = 1
    ∧ total_time_in_hms_get 500000000 = (0, 0, 1/2)
    ∧ total_time_in_hms_get 30000000000 = (0, 0, 30) := by
  refine ⟨?_, by decide, ?_, ?_⟩ <;> with_unfolding_all decide

/-- C6. The exit code main computes is discarded: on an unsupported platform
(or any other fatal precondition) main returns 1, but the module guard at
source lines 897-898 never passes that value to sys.exit, so the interpreter
exits with status 0 — contradicting the claimed process exit code of 1.
Per-file failures indeed never change the value main returns. -/
theorem process_exit_code_discarded :
    main_exit_code env_darwin = 1
    ∧ python_script_exit env_darwin = 0
    ∧ (∀ (env : ScriptEnv) (fails : List String),
        main_exit_code { env with file_failures := fails } = main_exit_code env) := by
  refine ⟨by decide, rfl, ?_⟩
  intro env fails
  rfl

/-- C7, counterexample. The claim says the registry resolution fails with an
unsupported-platform error when the platform is neither supported family. It
does not: for the unsupported platform string Darwin the resolution succeeds
and returns exactly the Linux-family tables; the unsupported-platform
rejection lives in the separate guard is_supported_platform. -/
theorem registry_unsupported_platform_refuted :
    dict_transcode_tool_platform_get "Darwin" "encode"
      = dict_transcode_tool_platform_get "Linux" "encode"
    ∧ is_supported_platform "Darwin" = false := by
  constructor
  · rfl
  · decide

/-- C7, amended. The registry resolution itself never fails: every platform
other than Windows receives the Linux-family tables. Unsupported platforms
are rejected up front by is_supported_platform, which accepts exactly the
two supported families, and main returns the fatal exit code 1 whenever that
guard fails, before any registry use. -/
theorem platform_guard_amended :
    (∀ (p op : String), p ≠ "Windows" →
      dict_transcode_tool_platform_get p op = dict_transcode_tool_platform_get "Linux" op)
    ∧ (∀ p : String, is_supported_platform p = true ↔ (p = "Windows" ∨ p = "Linux"))
    ∧ (∀ env : ScriptEnv, is_supported_platform env.platformSystem = false →
        main_exit_code env = 1) := by
  refine ⟨?_, ?_, ?_⟩
  · intro p op hp
    have hbeq : (p == "Windows") = false := by
      rw [beq_eq_false_iff_ne]
      exact hp
    unfold dict_transcode_tool_platform_get dict_transcode_tool_get
    rw [hbeq]
    rfl
  · intro p
    unfold is_supported_platform
    simp [Bool.or_eq_true, beq_iff_eq]
  · intro env h
    unfold main_exit_code
    rw [h]
    rfl

theorem platform_guard_amended_witness :
    ("Darwin" : String) ≠ "Windows"
    ∧ dict_transcode_tool_platform_get "Darwin" "decode"
        = dict_transcode_tool_platform_get "Linux" "decode"
    ∧ (is_supported_platform "Linux" = true ↔ ("Linux" = "Windows" ∨ ("Linux" : String) = "Linux"))
    ∧ main_exit_code env_darwin = 1 := by
  refine ⟨by decide, platform_guard_amended.1 "Darwin" "decode" (by decide),
    platform_guard_amended.2.1 "Linux",
    platform_guard_amended.2.2 _ (by decide)⟩
